import Mathlib

/-!
# Verification of the Misim instruction-set simulator core

Shallow embedding of the Misim simulator (`src/hpp/prototype.hpp` and the
`src/core` prototype revision) in Lean 4.  The machine word is the default
configuration of both shipped builds: a 32-bit unsigned integer
(`std::uint32_t`), represented here as a `Nat` together with explicit
reductions `% 2 ^ 32` wherever the C++ unsigned arithmetic wraps.

The embedding follows the source structure:
* `freefuncs`   — the bit utilities of namespace `scsp::freefuncs`;
* `ALU`         — the pure ALU of `scsp::ALU` (identical in `src/core/inc/alu.hpp`);
* `Decoder`     — the shift-and-mask field extractor of `scsp::decode`;
* `Core`        — the fetch / decode / check-jump / execute / memory-access
                  loop body, PSR update, and segment-map initialization;
* `Loader`      — the line-classifying state machine of
                  `src/core/prototype/inc/loader.hpp`.
-/

/-- Word width of the machine word (default build: `std::uint32_t`). -/
def W_BITS : Nat := 32

/-- Modulus of the machine word, `2 ^ 32`; unsigned arithmetic on the machine word is modulo this. -/
def WMOD : Nat := 2 ^ 32

namespace freefuncs

/-- The C++ `checkBitInrange<uint32_t>(position)`: `0 ≤ position < 32`. -/
def checkBitInrange (position : Nat) : Bool :=
  decide (position < 32)

/-- Width-parametric `checkBitInrange<uint>`: position within the bits of the
type (`sizeof(uint) * CHAR_BIT`). -/
def checkBitInrangeW (w position : Nat) : Bool :=
  decide (position < w)

/-- The C++ `testBit(n, position)` for a `w`-bit unsigned `n`: range-checked single-bit
test; `none` models the `std::domain_error` return. -/
def testBitW (w n position : Nat) : Option Bool :=
  if checkBitInrangeW w position then some (n.testBit position) else none

/-- The C++ `testBit` at the machine-word width. -/
def testBit (n position : Nat) : Option Bool :=
  testBitW 32 n position

/-- The no-bit-count overload `testBitAll(n)` for a `w`-bit unsigned `n`.

Mirrors the source exactly: `n_size = w - 1`; the separate test of the top
bit happens only in the `sizeof(n) == sizeof(std::uintmax_t)` branch
(`w = 64` on the supported platforms); in every case the final comparison
uses the mask `(uintmax_t(1) << n_size) - 1`, which covers only the low
`w - 1` bits. -/
def testBitAllW (w n : Nat) : Option Bool :=
  let n_size := w - 1
  let mask := (1 <<< n_size) - 1
  if w = 64 then
    match testBitW w n n_size with
    | some false => some false
    | some true => some (decide ((n &&& mask) = mask))
    | none => none
  else
    some (decide ((n &&& mask) = mask))

/-- The C++ `testBitAll(n)` at the machine-word width (32 bits): the `w = 64` branch
is statically skipped, so only the low 31 bits are compared. -/
def testBitAll (n : Nat) : Option Bool :=
  testBitAllW 32 n

/-- The C++ `promote<uint32_t>` — at the machine-word width the promoted type is the
type itself, so promotion preserves the value. -/
def promote (n : Nat) : Nat := n

end freefuncs

/-! PSR flag indices (`scsp::register_file::PSRReg`): N = 0, Z = 1, C = 2, V = 3. -/

namespace PSRReg

def N : Nat := 0
def Z : Nat := 1
def C : Nat := 2
def V : Nat := 3

end PSRReg

/-! GP register indices (`scsp::register_file::GPReg`): R0..R12 = 0..12. -/

namespace GPReg

def SP : Nat := 13
def LR : Nat := 14
def PC : Nat := 15

end GPReg

namespace ALU

/-- The C++ `scsp::ALU::ALUOpCode` — the 13 micro-operations. -/
inductive ALUOpCode where
  | ADD | UMUL | UDIV | UMOL | PASS
  | AND | ORR | XOR | COMP
  | SHL | SHR | RTL | RTR
deriving DecidableEq, Repr

/-- The C++ `ALUInput<uint32_t>`: opcode plus the operand pair (A, B). -/
structure ALUInput where
  m_opcode : ALUOpCode
  m_operands : Nat × Nat
deriving DecidableEq, Repr

/-- The produced flag set (`std::unordered_set<std::uint8_t>` over PSRReg
values in the source): each PSR flag is either in the set or not, so the set
is represented by one Boolean per flag.  `{}` is the empty set. -/
structure ALUFlags where
  n : Bool := false
  z : Bool := false
  c : Bool := false
  v : Bool := false
deriving DecidableEq, Repr

/-- The C++ `ALUOutput<uint32_t>`; `ALUOutput<T>{}` value-initializes to the empty
flag set and result 0. -/
structure ALUOutput where
  m_flags : ALUFlags := {}
  m_result : Nat := 0
deriving DecidableEq, Repr

/-- The C++ `testBit(R, sizeof(T) * CHAR_BIT - 1)` — the sign (top) bit of a word. -/
def msb32 (r : Nat) : Bool := r.testBit 31

/-- The C++ `getProgramStatusFlags(R)`: N iff the top bit of R is set, Z iff R = 0
(the source guards with the redundant `testBitNone(R) && R == 0x0`). -/
def getProgramStatusFlags (r : Nat) : ALUFlags :=
  { n := msb32 r, z := decide (r = 0) }

/-- The C++ `makeOutput(R)`: result R with the N/Z flags derived from R. -/
def makeOutput (r : Nat) : ALUOutput :=
  { m_flags := getProgramStatusFlags r, m_result := r }

/-- ALU `add`: `R = A + B` in 32-bit unsigned arithmetic; carry test
`R < A && R < B`; overflow test: top bits of A and B agree and differ from
the top bit of R.  N/Z are delegated to `getProgramStatusFlags`. -/
def add (A B : Nat) : ALUOutput :=
  let R := (A + B) % WMOD
  let carry := decide (R < A) && decide (R < B)
  let overflow :=
    if (msb32 A).xor (msb32 B) then false
    else (msb32 A).xor (msb32 R)
  { m_flags := { n := msb32 R, z := decide (R = 0), c := carry, v := overflow }
  , m_result := R }

/-- ALU `umul`: the promoted product truncated back to 32 bits
(`static_cast<T>(promote<T>(A) * promote<T>(B))`). -/
def umul (A B : Nat) : ALUOutput :=
  makeOutput ((freefuncs.promote A * freefuncs.promote B) % WMOD)

/-- ALU `udiv`: division by zero returns the default output (empty flag set,
result 0); `testBitNone(B) && B == 0x0` is `B = 0`. -/
def udiv (A B : Nat) : ALUOutput :=
  if B = 0 then {} else makeOutput (A / B)

/-- ALU `umol`: modulus, with the same zero-divisor recovery as `udiv`. -/
def umol (A B : Nat) : ALUOutput :=
  if B = 0 then {} else makeOutput (A % B)

/-- ALU `pass`: A unchanged. -/
def pass (A : Nat) : ALUOutput := makeOutput A

/-- ALU bitwise and. -/
def and_ (A B : Nat) : ALUOutput := makeOutput (A &&& B)

/-- ALU bitwise or. -/
def orr (A B : Nat) : ALUOutput := makeOutput (A ||| B)

/-- ALU bitwise xor. -/
def xor_ (A B : Nat) : ALUOutput := makeOutput (A ^^^ B)

/-- ALU `comp`: the no-position `flipBit` overload sets `n = ~n`, which at
32 bits is xor with the all-ones word; it never fails. -/
def comp (A : Nat) : ALUOutput := makeOutput (A ^^^ (WMOD - 1))

/-- ALU `shl`: `A << B` in 32-bit unsigned arithmetic (the C++ shift is
undefined for `B ≥ 32`; the embedding takes the wrapped value). -/
def shl (A B : Nat) : ALUOutput := makeOutput ((A <<< B) % WMOD)

/-- ALU `shr`: logical right shift. -/
def shr (A B : Nat) : ALUOutput := makeOutput (A >>> B)

/-- Rotation `std::rotl` on 32-bit words: rotate left by `s % 32`. -/
def rotl32 (x s : Nat) : Nat :=
  let r := s % 32
  ((x <<< r) % WMOD) ||| (x >>> (32 - r))

/-- Rotation `std::rotr` on 32-bit words: rotate right by `s % 32`. -/
def rotr32 (x s : Nat) : Nat :=
  let r := s % 32
  (x >>> r) ||| ((x <<< (32 - r)) % WMOD)

/-- ALU `rtl`: `std::rotl<T>(A, static_cast<int>(B))`. -/
def rtl (A B : Nat) : ALUOutput := makeOutput (rotl32 A B)

/-- ALU `rtr`: `std::rotr<T>(A, static_cast<int>(B))`. -/
def rtr (A B : Nat) : ALUOutput := makeOutput (rotr32 A B)

/-- The C++ `ALU::execute`: dispatch on the opcode. -/
def execute (alu_input : ALUInput) : ALUOutput :=
  let AB := alu_input.m_operands
  match alu_input.m_opcode with
  | .ADD => add AB.1 AB.2
  | .UMUL => umul AB.1 AB.2
  | .UDIV => udiv AB.1 AB.2
  | .UMOL => umol AB.1 AB.2
  | .PASS => pass AB.1
  | .AND => and_ AB.1 AB.2
  | .ORR => orr AB.1 AB.2
  | .XOR => xor_ AB.1 AB.2
  | .COMP => comp AB.1
  | .SHL => shl AB.1 AB.2
  | .SHR => shr AB.1 AB.2
  | .RTL => rtl AB.1 AB.2
  | .RTR => rtr AB.1 AB.2

/-- The promoted multiply at a narrower word width `w ≤ 32`: operands are
widened to 32 bits, multiplied there, and the product truncated back to `w`
bits — the overflow-safe multiply idiom of `scsp::freefuncs::promote`. -/
def umulW (w A B : Nat) : Nat :=
  ((freefuncs.promote A * freefuncs.promote B) % WMOD) % 2 ^ w

end ALU

namespace Decoder

/-- Decoded instruction (`scsp::decode::Instruction<DefaultEncoding>`); all
fields are the raw extracted bit-fields. -/
structure Instruction where
  m_type : Nat
  m_code : Nat
  m_Rd : Nat
  m_Rn : Nat
  m_Rm : Nat
  m_imm : Nat
deriving DecidableEq, Repr

/-- The C++ `makeMask<uint32_t>`: the all-ones word shifted right by `32 - length`
(lengths above 32 return the full mask). -/
def makeMask (mask_length : Nat) : Nat :=
  if mask_length > 32 then WMOD - 1 else (WMOD - 1) >>> (32 - mask_length)

/-- The C++ `extract`: shift the instruction right to the field start and mask the
field length. -/
def extract (instruction start_idx len : Nat) : Nat :=
  (instruction >>> start_idx) &&& makeMask len

/-- The C++ `Decoder::decode` with `DefaultEncoding`:
op_type `[0:4)`, op_code `[4:12)`, Rd `[12:16)`, Rm `[16:20)`, Rn `[20:24)`,
imm `[20:32)`. -/
def decode (instruction : Nat) : Instruction :=
  { m_type := extract instruction 0 4
  , m_code := extract instruction 4 8
  , m_Rd := extract instruction 12 4
  , m_Rn := extract instruction 20 4
  , m_Rm := extract instruction 16 4
  , m_imm := extract instruction 20 12 }

end Decoder

/-! Instruction-set enumerations (`scsp::decode`), as the numeric values the
decoder produces. -/

namespace OpType

def Rt : Nat := 0
def It : Nat := 1
def Ut : Nat := 2
def St : Nat := 3
def Jt : Nat := 4

end OpType

namespace OpCode

def ADD : Nat := 0
def UMUL : Nat := 1
def UDIV : Nat := 2
def UMOL : Nat := 3
def AND : Nat := 4
def ORR : Nat := 5
def XOR : Nat := 6
def SHL : Nat := 7
def SHR : Nat := 8
def RTL : Nat := 9
def RTR : Nat := 10
def NOT : Nat := 11
def LDR : Nat := 12
def STR : Nat := 13
def PUSH : Nat := 14
def POP : Nat := 15
def JMP : Nat := 16
def JZ : Nat := 17
def JN : Nat := 18
def JC : Nat := 19
def JV : Nat := 20
def JZN : Nat := 21
def SYSCALL : Nat := 22

end OpCode

namespace Core

/-- The C++ `scsp::register_file::SEGReg`: the four segment keys. -/
inductive SEGReg where
  | CS | DS | SS | ES
deriving DecidableEq, Repr

/-- The C++ `Core::SegmentRange`: an inclusive address range (fields are
`std::uint32_t`). -/
structure SegmentRange where
  m_start : Nat
  m_end : Nat
deriving DecidableEq, Repr

/-- The architectural state owned by the Core: memory array, the 16 GP
registers, the PSR bitmask (`Registers::m_psr`, bits N=0 Z=1 C=2 V=3), and
the segment map. -/
structure CoreState where
  m_memory : Nat → Nat
  m_register : Nat → Nat
  m_psr : Nat
  m_segment : SEGReg → SegmentRange

/-- Point update of a register (or memory) array. -/
def setAt (f : Nat → Nat) (i v : Nat) : Nat → Nat :=
  fun j => if j = i then v else f j

/-- The C++ `Memory::read`: bounds-checked (`none` models the `domain_error`). -/
def memRead (memSize : Nat) (mem : Nat → Nat) (address : Nat) : Option Nat :=
  if address < memSize then some (mem address) else none

/-- The C++ `Memory::write`: bounds-checked; no partial writes. -/
def memWrite (memSize : Nat) (mem : Nat → Nat) (data address : Nat) :
    Option (Nat → Nat) :=
  if address < memSize then some (setAt mem address data) else none

/-- The C++ `Registers::getProgramStatus(flag)`: test the PSR bit. -/
def getProgramStatus (s : CoreState) (flag : Nat) : Bool :=
  s.m_psr.testBit flag

/-- The PSR bitmask holding exactly a given flag set: `updatePsr` first calls
`clearPsrValue` and then `setProgramStatus(flag, true)` once per member of
the set (the iteration order of the `unordered_set` is irrelevant because
setting distinct bits commutes). -/
def flagsToPsr (f : ALU.ALUFlags) : Nat :=
  (if f.n then 1 <<< PSRReg.N else 0) |||
  (if f.z then 1 <<< PSRReg.Z else 0) |||
  (if f.c then 1 <<< PSRReg.C else 0) |||
  (if f.v then 1 <<< PSRReg.V else 0)

/-- The C++ `Core::updatePsr`: replace the PSR with the returned flag set. -/
def updatePsr (s : CoreState) (updated_flags : ALU.ALUFlags) : CoreState :=
  { s with m_psr := flagsToPsr updated_flags }

/-- The C++ `Core::checkAddressInrange(address, segment)`: inclusive range check. -/
def checkAddressInrange (address : Nat) (segment : SegmentRange) : Bool :=
  decide (address ≥ segment.m_start) && decide (address ≤ segment.m_end)

/-- Unsigned 32-bit subtraction (`a - b` on `std::uint32_t`). -/
def sub32 (a b : Nat) : Nat :=
  (a + (WMOD - b % WMOD)) % WMOD

/-- The C++ `Core::fetch`: fatal unless PC lies in CS and the read succeeds;
increments PC (32-bit wrap) and returns the fetched word. -/
def fetch (memSize : Nat) (s : CoreState) : Option (CoreState × Nat) :=
  if !checkAddressInrange (s.m_register GPReg.PC) (s.m_segment SEGReg.CS) then
    none
  else
    match memRead memSize s.m_memory (s.m_register GPReg.PC) with
    | some instruction =>
        some ({ s with
                m_register := setAt s.m_register GPReg.PC
                  ((s.m_register GPReg.PC + 1) % WMOD) },
              instruction)
    | none => none

/-- The C++ `Core::makeALUInput`. -/
def makeALUInput (alu_opcode : ALU.ALUOpCode) (operand1 operand2 : Nat) :
    ALU.ALUInput :=
  { m_opcode := alu_opcode, m_operands := (operand1, operand2) }

/-- The R/I-type arm of `generateALUInput`: R-type reads `(reg[Rm], reg[Rn])`,
I-type reads `(reg[Rm], imm)`; any other type is a fatal
"Unknown instruction type". -/
def makeALUInputForRI (s : CoreState) (i : Decoder.Instruction)
    (opcode : ALU.ALUOpCode) : Option ALU.ALUInput :=
  if i.m_type = OpType.Rt then
    some (makeALUInput opcode (s.m_register i.m_Rm) (s.m_register i.m_Rn))
  else if i.m_type = OpType.It then
    some (makeALUInput opcode (s.m_register i.m_Rm) i.m_imm)
  else
    none

/-- The C++ `Core::generateALUInput`: fatal on J-type fall-through; dispatch on the
instruction opcode.  `PUSH` uses `(SP, -1)` (the literal `-1` converts to the
all-ones 32-bit word) and `POP` uses `(SP, 1)`, both under ALU `ADD`;
unknown opcodes are fatal. -/
def generateALUInput (s : CoreState) (i : Decoder.Instruction) :
    Option ALU.ALUInput :=
  if i.m_type = OpType.Jt then none
  else if i.m_code = OpCode.ADD then makeALUInputForRI s i .ADD
  else if i.m_code = OpCode.UMUL then makeALUInputForRI s i .UMUL
  else if i.m_code = OpCode.UDIV then makeALUInputForRI s i .UDIV
  else if i.m_code = OpCode.UMOL then makeALUInputForRI s i .UMOL
  else if i.m_code = OpCode.AND then makeALUInputForRI s i .AND
  else if i.m_code = OpCode.ORR then makeALUInputForRI s i .ORR
  else if i.m_code = OpCode.XOR then makeALUInputForRI s i .XOR
  else if i.m_code = OpCode.SHL then makeALUInputForRI s i .SHL
  else if i.m_code = OpCode.SHR then makeALUInputForRI s i .SHR
  else if i.m_code = OpCode.RTL then makeALUInputForRI s i .RTL
  else if i.m_code = OpCode.RTR then makeALUInputForRI s i .RTR
  else if i.m_code = OpCode.NOT then
    some (makeALUInput .COMP (s.m_register i.m_Rm) 0)
  else if i.m_code = OpCode.LDR then
    some (makeALUInput .PASS (s.m_register i.m_Rm) 0)
  else if i.m_code = OpCode.STR then
    some (makeALUInput .PASS (s.m_register i.m_Rm) 0)
  else if i.m_code = OpCode.PUSH then
    some (makeALUInput .ADD (s.m_register GPReg.SP) (WMOD - 1))
  else if i.m_code = OpCode.POP then
    some (makeALUInput .ADD (s.m_register GPReg.SP) 1)
  else none

/-- The C++ `Core::execute`: run the ALU on the synthesized input and replace the PSR
with the returned flag set; yields the new state and the ALU result. -/
def execute (s : CoreState) (i : Decoder.Instruction) :
    Option (CoreState × Nat) :=
  match generateALUInput s i with
  | none => none
  | some inp =>
      let result := ALU.execute inp
      some (updatePsr s result.m_flags, result.m_result)

/-- The C++ `Core::memoryAccess`: LDR/STR are bounds-checked loads/stores at the ALU
result; PUSH requires the target inside SS (else fatal stack overflow),
stores `reg[Rd]` there (the write result is discarded in the source) and
moves SP down; POP silently no-ops when `addr_val - 1` lies outside SS,
otherwise loads `memory[SP]` into Rd and moves SP up; every other opcode
writes the ALU result back into Rd. -/
def memoryAccess (memSize : Nat) (s : CoreState) (i : Decoder.Instruction)
    (addr_val : Nat) : Option CoreState :=
  if i.m_code = OpCode.LDR then
    match memRead memSize s.m_memory addr_val with
    | some v => some { s with m_register := setAt s.m_register i.m_Rd v }
    | none => none
  else if i.m_code = OpCode.STR then
    match memWrite memSize s.m_memory (s.m_register i.m_Rd) addr_val with
    | some mem => some { s with m_memory := mem }
    | none => none
  else if i.m_code = OpCode.PUSH then
    if !checkAddressInrange addr_val (s.m_segment SEGReg.SS) then none
    else
      let mem :=
        match memWrite memSize s.m_memory (s.m_register i.m_Rd) addr_val with
        | some m => m
        | none => s.m_memory
      some { s with m_memory := mem
                  , m_register := setAt s.m_register GPReg.SP addr_val }
  else if i.m_code = OpCode.POP then
    if !checkAddressInrange (sub32 addr_val 1) (s.m_segment SEGReg.SS) then
      some s
    else
      match memRead memSize s.m_memory (s.m_register GPReg.SP) with
      | some v =>
          some { s with m_register :=
                   setAt (setAt s.m_register i.m_Rd v) GPReg.SP addr_val }
      | none => none
  else
    some { s with m_register := setAt s.m_register i.m_Rd addr_val }

/-- The C++ `performJump`: write the destination into PC when the condition holds. -/
def performJump (s : CoreState) (condition : Bool) (dst : Nat) : CoreState :=
  if condition then
    { s with m_register := setAt s.m_register GPReg.PC dst }
  else s

/-- Result of `Core::checkJump`. -/
inductive CheckJumpResult where
  /-- The instruction is not J-type: `checkJump` returned `false`. -/
  | notJump
  /-- A branch arm ran; `checkJump` returned `true` with this state. -/
  | jumped (s : CoreState)
  /-- The SYSCALL arm ran: the selected handler performs console I/O on
  memory and registers, which is outside this model. -/
  | syscallInvoked (imm : Nat) (s : CoreState)
  /-- The default arm: fatal "Unknown OpCode detected." -/
  | fault

/-- The C++ `Core::checkJump`: `false` for non-J-type instructions; otherwise take
the branch arm selected by the opcode (JMP unconditional; JZ/JN/JC/JV on the
single flag; JZN on Z ∨ N; SYSCALL dispatches a handler; anything else is
fatal). -/
def checkJump (s : CoreState) (i : Decoder.Instruction) : CheckJumpResult :=
  if i.m_type ≠ OpType.Jt then .notJump
  else if i.m_code = OpCode.JMP then
    .jumped (performJump s true i.m_imm)
  else if i.m_code = OpCode.JZ then
    .jumped (performJump s (getProgramStatus s PSRReg.Z) i.m_imm)
  else if i.m_code = OpCode.JN then
    .jumped (performJump s (getProgramStatus s PSRReg.N) i.m_imm)
  else if i.m_code = OpCode.JC then
    .jumped (performJump s (getProgramStatus s PSRReg.C) i.m_imm)
  else if i.m_code = OpCode.JV then
    .jumped (performJump s (getProgramStatus s PSRReg.V) i.m_imm)
  else if i.m_code = OpCode.JZN then
    .jumped (performJump s
      (getProgramStatus s PSRReg.Z || getProgramStatus s PSRReg.N) i.m_imm)
  else if i.m_code = OpCode.SYSCALL then
    .syscallInvoked i.m_imm s
  else .fault

/-- The branch condition of the arm `checkJump` selects for a J-type opcode
(summarizing the `performJump` call sites). -/
def jumpCondition (s : CoreState) (code : Nat) : Bool :=
  if code = OpCode.JMP then true
  else if code = OpCode.JZ then getProgramStatus s PSRReg.Z
  else if code = OpCode.JN then getProgramStatus s PSRReg.N
  else if code = OpCode.JC then getProgramStatus s PSRReg.C
  else if code = OpCode.JV then getProgramStatus s PSRReg.V
  else if code = OpCode.JZN then
    getProgramStatus s PSRReg.Z || getProgramStatus s PSRReg.N
  else false

/-- Outcome of one iteration of the `Core::run` loop. -/
inductive StepResult where
  /-- The fetched word passed `testBitAll`: the loop breaks (normal halt). -/
  | halt
  /-- The instruction retired; the loop continues from this state. -/
  | next (s : CoreState)
  /-- A SYSCALL instruction: the handler's console I/O is outside the model. -/
  | syscall (imm : Nat) (s : CoreState)

/-- One iteration of the `Core::run` loop: fetch, sentinel test, decode,
`checkJump` (jump instructions retire there), otherwise execute and
memory-access.  `none` is any fatal condition. -/
def stepInstruction (memSize : Nat) (s : CoreState) : Option StepResult :=
  match fetch memSize s with
  | none => none
  | some (s1, binary) =>
      match freefuncs.testBitAll binary with
      | none => none
      | some true => some .halt
      | some false =>
          let instruction := Decoder.decode binary
          match checkJump s1 instruction with
          | .jumped s2 => some (.next s2)
          | .syscallInvoked imm s2 => some (.syscall imm s2)
          | .fault => none
          | .notJump =>
              match execute s1 instruction with
              | none => none
              | some (s2, result) =>
                  match memoryAccess memSize s2 instruction result with
                  | none => none
                  | some s3 => some (.next s3)

/-- Projection: the PSR of the state a normally retired step continues from. -/
def psrAfter : Option StepResult → Option Nat
  | some (.next s) => some s.m_psr
  | _ => none

/-- Projection: the state a normally retired step continues from. -/
def nextState : Option StepResult → Option CoreState
  | some (.next s) => some s
  | _ => none

/-- Projection: whether the loop iteration halted at the sentinel test. -/
def isHalt : Option StepResult → Bool
  | some .halt => true
  | _ => false

/-- Projection of `CheckJumpResult`: the state of a taken `jumped` arm. -/
def jumpedState : CheckJumpResult → Option CoreState
  | .jumped s => some s
  | _ => none

end Core

/-! ## Helper lemmas -/

/-- The two's-complement reading of a 32-bit word. -/
def toTwos (x : Nat) : Int :=
  if x < 2 ^ 31 then (x : Int) else (x : Int) - 2 ^ 32

theorem msb32_eq_decide (x : Nat) (hx : x < 2 ^ 32) :
    ALU.msb32 x = decide (2 ^ 31 ≤ x) := by
  unfold ALU.msb32
  rw [Nat.testBit_to_div_mod, decide_eq_decide]
  omega

theorem rotl32_lt (x s : Nat) (hx : x < 2 ^ 32) : ALU.rotl32 x s < 2 ^ 32 := by
  unfold ALU.rotl32 WMOD
  refine Nat.or_lt_two_pow (Nat.mod_lt _ (by norm_num)) ?_
  calc x >>> (32 - s % 32) ≤ x := by
        rw [Nat.shiftRight_eq_div_pow]; exact Nat.div_le_self _ _
    _ < 2 ^ 32 := hx

theorem rotr32_rotl32 (x k : Nat) (hx : x < 2 ^ 32) (hk : k < 32) :
    ALU.rotr32 (ALU.rotl32 x k) k = x := by
  have hmod : k % 32 = k := Nat.mod_eq_of_lt hk
  have hb_lt : ALU.rotl32 x k < 2 ^ 32 := rotl32_lt x k hx
  have hx_bit : ∀ m, 32 ≤ m → x.testBit m = false := fun m hm =>
    Nat.testBit_lt_two_pow (lt_of_lt_of_le hx (Nat.pow_le_pow_right (by norm_num) hm))
  have hb3 : ∀ m, 32 ≤ m → (ALU.rotl32 x k).testBit m = false := fun m hm =>
    Nat.testBit_lt_two_pow (lt_of_lt_of_le hb_lt (Nat.pow_le_pow_right (by norm_num) hm))
  have hb1 : ∀ m, k ≤ m → m < 32 → (ALU.rotl32 x k).testBit m = x.testBit (m - k) := by
    intro m h1 h2
    unfold ALU.rotl32 WMOD
    simp only [hmod, Nat.testBit_lor, Nat.testBit_mod_two_pow, Nat.testBit_shiftLeft,
      Nat.testBit_shiftRight]
    rw [show (32 - k + m) = 32 + (m - k) by omega, hx_bit (32 + (m - k)) (by omega)]
    simp [h1, h2]
  have hb2 : ∀ m, m < k → (ALU.rotl32 x k).testBit m = x.testBit (32 - k + m) := by
    intro m h1
    unfold ALU.rotl32 WMOD
    simp only [hmod, Nat.testBit_lor, Nat.testBit_mod_two_pow, Nat.testBit_shiftLeft,
      Nat.testBit_shiftRight]
    simp [show ¬(m ≥ k) by omega]
  apply Nat.eq_of_testBit_eq
  intro j
  unfold ALU.rotr32 WMOD
  simp only [hmod, Nat.testBit_lor, Nat.testBit_mod_two_pow, Nat.testBit_shiftLeft,
    Nat.testBit_shiftRight]
  by_cases hj : j < 32
  · by_cases hreg : j < 32 - k
    · rw [hb1 (k + j) (by omega) (by omega), show k + j - k = j by omega]
      simp [show ¬(j ≥ 32 - k) by omega]
    · rw [hb3 (k + j) (by omega), hb2 (j - (32 - k)) (by omega),
        show 32 - k + (j - (32 - k)) = j by omega]
      simp [hj, show j ≥ 32 - k by omega]
  · rw [hb3 (k + j) (by omega), hx_bit j (by omega)]
    simp [hj]

theorem flagsToPsr_testBit (f : ALU.ALUFlags) :
    (Core.flagsToPsr f).testBit PSRReg.N = f.n ∧
    (Core.flagsToPsr f).testBit PSRReg.Z = f.z ∧
    (Core.flagsToPsr f).testBit PSRReg.C = f.c ∧
    (Core.flagsToPsr f).testBit PSRReg.V = f.v := by
  obtain ⟨n, z, c, v⟩ := f
  cases n <;> cases z <;> cases c <;> cases v <;> decide

/-! ## Claim C1 -/

/-- A concrete core state whose next fetch returns `0x7FFFFFFF`
(segment layout of the shipped `main.cpp`: CS=[0,24], DS=[31,47],
SS=[25,30], ES=[48,48]; `MEM_SIZE` and register/memory contents below). -/
def mainSegments : Core.SEGReg → Core.SegmentRange
  | .CS => ⟨0, 24⟩
  | .DS => ⟨31, 47⟩
  | .SS => ⟨25, 30⟩
  | .ES => ⟨48, 48⟩

def c1State : Core.CoreState :=
  { m_memory := fun a => if a = 0 then 2147483647 else 0
  , m_register := fun _ => 0
  , m_psr := 0
  , m_segment := mainSegments }

/-- Claim C1 (code bug).  The spec: `testBitAll(n)` is true iff every bit of
`n` is 1, and the fetch loop halts normally exactly on the all-ones
sentinel.  The code compares only the low 31 bits of a 32-bit word (its
separate top-bit test runs only when `sizeof(n) == sizeof(uintmax_t)`), so
`testBitAll(0x7FFFFFFF)` is `true` although bit 31 is 0, and a fetched
`0x7FFFFFFF` halts the run loop even though it is not the sentinel
`0xFFFFFFFF`. -/
theorem C1_testBitAll_and_sentinel_bug :
    freefuncs.testBitAll 2147483647 = some true ∧
    (2147483647 : Nat) ≠ 2 ^ 32 - 1 ∧
    freefuncs.testBitAll (2 ^ 32 - 1) = some true ∧
    Core.isHalt (Core.stepInstruction 300 c1State) = true ∧
    c1State.m_memory (c1State.m_register GPReg.PC) = 2147483647 := by
  refine ⟨by decide, by decide, by decide, ?_, by decide⟩
  decide

/-! ## Claim C2 -/

/-- Claim C2 (confirmed).  Flag correctness of ALU `ADD` on 32-bit operands:
Z iff the result is 0; N iff the top bit of the result is set; C via the
implemented test `R < A ∧ R < B`, which holds exactly when the unsigned sum
reaches `2^32`; V iff the top bits of A and B agree and differ from the top
bit of the result, which is exactly signed overflow of the two's-complement
reading. -/
theorem C2_add_flag_correctness (A B : Nat) (hA : A < 2 ^ 32) (hB : B < 2 ^ 32) :
    ((ALU.execute ⟨.ADD, (A, B)⟩).m_flags.z = true ↔
      (ALU.execute ⟨.ADD, (A, B)⟩).m_result = 0) ∧
    ((ALU.execute ⟨.ADD, (A, B)⟩).m_flags.n = true ↔
      (ALU.execute ⟨.ADD, (A, B)⟩).m_result.testBit 31 = true) ∧
    ((ALU.execute ⟨.ADD, (A, B)⟩).m_flags.c = true ↔
      ((ALU.execute ⟨.ADD, (A, B)⟩).m_result < A ∧
       (ALU.execute ⟨.ADD, (A, B)⟩).m_result < B)) ∧
    ((ALU.execute ⟨.ADD, (A, B)⟩).m_flags.c = true ↔ 2 ^ 32 ≤ A + B) ∧
    ((ALU.execute ⟨.ADD, (A, B)⟩).m_flags.v = true ↔
      (A.testBit 31 = B.testBit 31 ∧
       A.testBit 31 ≠ (ALU.execute ⟨.ADD, (A, B)⟩).m_result.testBit 31)) ∧
    ((ALU.execute ⟨.ADD, (A, B)⟩).m_flags.v = true ↔
      ¬(-(2 ^ 31) ≤ toTwos A + toTwos B ∧ toTwos A + toTwos B < 2 ^ 31)) := by
  have he : ALU.execute ⟨.ADD, (A, B)⟩ = ALU.add A B := rfl
  have hR : (ALU.add A B).m_result = (A + B) % 2 ^ 32 := rfl
  have hRlt : (A + B) % 2 ^ 32 < 2 ^ 32 := Nat.mod_lt _ (by norm_num)
  rw [he]
  unfold ALU.add
  simp only [WMOD]
  refine ⟨by simp, Iff.rfl, by simp, ?_, ?_, ?_⟩
  · rw [Bool.and_eq_true, decide_eq_true_iff, decide_eq_true_iff]
    omega
  · show ((if (ALU.msb32 A).xor (ALU.msb32 B) = true then false
           else (ALU.msb32 A).xor (ALU.msb32 ((A + B) % 2 ^ 32))) = true) ↔ _
    unfold ALU.msb32
    cases hA' : A.testBit 31 <;> cases hB' : B.testBit 31 <;>
      cases hR' : ((A + B) % 2 ^ 32).testBit 31 <;> simp
  · show ((if (ALU.msb32 A).xor (ALU.msb32 B) = true then false
           else (ALU.msb32 A).xor (ALU.msb32 ((A + B) % 2 ^ 32))) = true) ↔ _
    rw [msb32_eq_decide A hA, msb32_eq_decide B hB, msb32_eq_decide _ hRlt]
    unfold toTwos
    by_cases hA' : 2 ^ 31 ≤ A <;> by_cases hB' : 2 ^ 31 ≤ B <;>
      by_cases hR' : 2 ^ 31 ≤ (A + B) % 2 ^ 32 <;>
      simp [hA', hB', hR'] <;> omega

/-- Witness for C2 at A = `0xF0000000`, B = `0x20000001`. -/
theorem C2_add_flag_correctness_witness :
    (4026531840 : Nat) < 2 ^ 32 ∧ (536870913 : Nat) < 2 ^ 32 ∧
    ((ALU.execute ⟨.ADD, (4026531840, 536870913)⟩).m_flags.c = true ↔
      2 ^ 32 ≤ 4026531840 + 536870913) :=
  ⟨by norm_num, by norm_num,
    (C2_add_flag_correctness 4026531840 536870913 (by norm_num) (by norm_num)).2.2.2.1⟩

/-! ## Claim C6 -/

/-- Claim C6 (confirmed).  UDIV and UMOL with divisor 0 return the
value-initialized output: empty flag set and result 0 — a locally recovered
no-operation, never a failure. -/
theorem C6_division_by_zero_safety :
    ∀ A : Nat,
      ALU.execute ⟨.UDIV, (A, 0)⟩ = { m_flags := {}, m_result := 0 } ∧
      ALU.execute ⟨.UMOL, (A, 0)⟩ = { m_flags := {}, m_result := 0 } :=
  fun _ => ⟨rfl, rfl⟩

/-! ## Claim C7 -/

/-- Claim C7 (confirmed).  Word-modular arithmetic: ADD produces
`(A + B) mod 2^32` and UMUL produces `(A * B) mod 2^32`; at any narrower
width `w ≤ 32` the promoted 32-bit product truncated back to `w` bits equals
`(A * B) mod 2^w`. -/
theorem C7_word_modular_arithmetic :
    (∀ A B : Nat, (ALU.execute ⟨.ADD, (A, B)⟩).m_result = (A + B) % 2 ^ 32) ∧
    (∀ A B : Nat, (ALU.execute ⟨.UMUL, (A, B)⟩).m_result = (A * B) % 2 ^ 32) ∧
    (∀ w : Nat, w ≤ 32 → ∀ A B : Nat, ALU.umulW w A B = (A * B) % 2 ^ w) := by
  refine ⟨fun A B => rfl, fun A B => rfl, fun w hw A B => ?_⟩
  unfold ALU.umulW freefuncs.promote WMOD
  exact Nat.mod_mod_of_dvd _ (pow_dvd_pow 2 hw)

/-- Witness for C7's truncation clause at width 8. -/
theorem C7_word_modular_arithmetic_witness :
    ALU.umulW 8 200 131 = (200 * 131) % 2 ^ 8 :=
  C7_word_modular_arithmetic.2.2 8 (by norm_num) 200 131

/-! ## Claim C8 -/

/-- Claim C8 (confirmed).  Rotate round-trip: for every 32-bit word A and every
rotation count `0 ≤ k < 32`, RTR(RTL(A, k), k) = A. -/
theorem C8_rotate_round_trip (A k : Nat) (hA : A < 2 ^ 32) (hk : k < 32) :
    (ALU.execute ⟨.RTR, ((ALU.execute ⟨.RTL, (A, k)⟩).m_result, k)⟩).m_result
      = A := by
  show ALU.rotr32 (ALU.rotl32 A k) k = A
  exact rotr32_rotl32 A k hA hk

/-- Witness for C8 at A = `0x89ABCDEF`, k = 13. -/
theorem C8_rotate_round_trip_witness :
    (ALU.execute ⟨.RTR, ((ALU.execute ⟨.RTL, (2309737967, 13)⟩).m_result, 13)⟩).m_result
      = 2309737967 :=
  C8_rotate_round_trip 2309737967 13 (by norm_num) (by norm_num)

/-! ## Claim C3 -/

/-- The C++ `memoryAccess` never touches the PSR. -/
theorem memoryAccess_psr (memSize : Nat) (s : Core.CoreState)
    (i : Decoder.Instruction) (v : Nat) (s' : Core.CoreState)
    (h : Core.memoryAccess memSize s i v = some s') :
    s'.m_psr = s.m_psr := by
  unfold Core.memoryAccess at h
  repeat' split at h
  all_goals try exact Option.noConfusion h
  all_goals (obtain rfl := Option.some.inj h; rfl)

/-- The C++ `makeALUInputForRI` passes the requested ALU opcode through. -/
theorem makeALUInputForRI_opcode (s : Core.CoreState) (i : Decoder.Instruction)
    (opc : ALU.ALUOpCode) (inp : ALU.ALUInput)
    (h : Core.makeALUInputForRI s i opc = some inp) :
    inp.m_opcode = opc := by
  unfold Core.makeALUInputForRI at h
  split_ifs at h
  all_goals (obtain rfl := Option.some.inj h; rfl)

/-- The ALU opcode synthesized for an instruction whose opcode in the
instruction set is none of ADD, PUSH, POP is never the ALU `ADD`. -/
theorem generateALUInput_opcode (s : Core.CoreState) (i : Decoder.Instruction)
    (inp : ALU.ALUInput)
    (h : Core.generateALUInput s i = some inp)
    (h1 : i.m_code ≠ OpCode.ADD) (h2 : i.m_code ≠ OpCode.PUSH)
    (h3 : i.m_code ≠ OpCode.POP) :
    inp.m_opcode ≠ ALU.ALUOpCode.ADD := by
  unfold Core.generateALUInput at h
  by_cases hJt : i.m_type = OpType.Jt
  · rw [if_pos hJt] at h; exact Option.noConfusion h
  rw [if_neg hJt, if_neg h1] at h
  by_cases hc1 : i.m_code = OpCode.UMUL
  · rw [if_pos hc1] at h; rw [makeALUInputForRI_opcode s i _ inp h]; decide
  rw [if_neg hc1] at h
  by_cases hc2 : i.m_code = OpCode.UDIV
  · rw [if_pos hc2] at h; rw [makeALUInputForRI_opcode s i _ inp h]; decide
  rw [if_neg hc2] at h
  by_cases hc3 : i.m_code = OpCode.UMOL
  · rw [if_pos hc3] at h; rw [makeALUInputForRI_opcode s i _ inp h]; decide
  rw [if_neg hc3] at h
  by_cases hc4 : i.m_code = OpCode.AND
  · rw [if_pos hc4] at h; rw [makeALUInputForRI_opcode s i _ inp h]; decide
  rw [if_neg hc4] at h
  by_cases hc5 : i.m_code = OpCode.ORR
  · rw [if_pos hc5] at h; rw [makeALUInputForRI_opcode s i _ inp h]; decide
  rw [if_neg hc5] at h
  by_cases hc6 : i.m_code = OpCode.XOR
  · rw [if_pos hc6] at h; rw [makeALUInputForRI_opcode s i _ inp h]; decide
  rw [if_neg hc6] at h
  by_cases hc7 : i.m_code = OpCode.SHL
  · rw [if_pos hc7] at h; rw [makeALUInputForRI_opcode s i _ inp h]; decide
  rw [if_neg hc7] at h
  by_cases hc8 : i.m_code = OpCode.SHR
  · rw [if_pos hc8] at h; rw [makeALUInputForRI_opcode s i _ inp h]; decide
  rw [if_neg hc8] at h
  by_cases hc9 : i.m_code = OpCode.RTL
  · rw [if_pos hc9] at h; rw [makeALUInputForRI_opcode s i _ inp h]; decide
  rw [if_neg hc9] at h
  by_cases hc10 : i.m_code = OpCode.RTR
  · rw [if_pos hc10] at h; rw [makeALUInputForRI_opcode s i _ inp h]; decide
  rw [if_neg hc10] at h
  by_cases hc11 : i.m_code = OpCode.NOT
  · rw [if_pos hc11] at h; obtain rfl := Option.some.inj h; simp [Core.makeALUInput]
  rw [if_neg hc11] at h
  by_cases hc12 : i.m_code = OpCode.LDR
  · rw [if_pos hc12] at h; obtain rfl := Option.some.inj h; simp [Core.makeALUInput]
  rw [if_neg hc12] at h
  by_cases hc13 : i.m_code = OpCode.STR
  · rw [if_pos hc13] at h; obtain rfl := Option.some.inj h; simp [Core.makeALUInput]
  rw [if_neg hc13, if_neg h2, if_neg h3] at h
  exact Option.noConfusion h

/-- Every ALU operation other than ADD produces neither C nor V. -/
theorem alu_nonadd_no_cv (inp : ALU.ALUInput)
    (h : inp.m_opcode ≠ ALU.ALUOpCode.ADD) :
    (ALU.execute inp).m_flags.c = false ∧
    (ALU.execute inp).m_flags.v = false := by
  obtain ⟨op, A, B⟩ := inp
  cases op
  case ADD => exact absurd rfl h
  case UDIV =>
    show (ALU.udiv A B).m_flags.c = false ∧ (ALU.udiv A B).m_flags.v = false
    unfold ALU.udiv
    split <;> exact ⟨rfl, rfl⟩
  case UMOL =>
    show (ALU.umol A B).m_flags.c = false ∧ (ALU.umol A B).m_flags.v = false
    unfold ALU.umol
    split <;> exact ⟨rfl, rfl⟩
  all_goals exact ⟨rfl, rfl⟩

/-- Claim C3 (corrected).  After `Core::execute` the PSR holds exactly the flag
set the ALU returned (`updatePsr` clears the PSR first, then sets each
returned flag), and `memoryAccess` preserves it, so every retired non-jump
instruction leaves the PSR equal to that flag set.  The final clause is the
amended tail of the claim: C and V become false on every instruction whose
opcode is none of ADD, **PUSH and POP** — the claim's "every opcode other
than ADD" is refuted by `C3_counterexample`, because PUSH and POP drive the
ALU in `ADD` mode with operands `(SP, ∓1)`. -/
theorem C3_psr_update (memSize : Nat) (s : Core.CoreState)
    (i : Decoder.Instruction) (inp : ALU.ALUInput)
    (htype : i.m_type ≠ OpType.Jt)
    (hinp : Core.generateALUInput s i = some inp) :
    (∀ s1 r, Core.execute s i = some (s1, r) →
       s1.m_psr = Core.flagsToPsr (ALU.execute inp).m_flags ∧
       r = (ALU.execute inp).m_result) ∧
    (∀ s1 r s2, Core.execute s i = some (s1, r) →
       Core.memoryAccess memSize s1 i r = some s2 →
       s2.m_psr = Core.flagsToPsr (ALU.execute inp).m_flags) ∧
    (i.m_code ≠ OpCode.ADD → i.m_code ≠ OpCode.PUSH → i.m_code ≠ OpCode.POP →
      ∀ s1 r s2, Core.execute s i = some (s1, r) →
        Core.memoryAccess memSize s1 i r = some s2 →
        s2.m_psr.testBit PSRReg.C = false ∧
        s2.m_psr.testBit PSRReg.V = false) := by
  have hexec : ∀ s1 r, Core.execute s i = some (s1, r) →
      s1.m_psr = Core.flagsToPsr (ALU.execute inp).m_flags ∧
      r = (ALU.execute inp).m_result := by
    intro s1 r h
    unfold Core.execute at h
    rw [hinp] at h
    have h' := Option.some.inj h
    injection h' with h1 h2
    refine ⟨?_, h2.symm⟩
    rw [← h1]
    rfl
  refine ⟨hexec, ?_, ?_⟩
  · intro s1 r s2 h1 h2
    rw [memoryAccess_psr memSize s1 i r s2 h2]
    exact (hexec s1 r h1).1
  · intro hc1 hc2 hc3 s1 r s2 h1 h2
    have hpsr : s2.m_psr = Core.flagsToPsr (ALU.execute inp).m_flags := by
      rw [memoryAccess_psr memSize s1 i r s2 h2]
      exact (hexec s1 r h1).1
    have hop := generateALUInput_opcode s i inp hinp hc1 hc2 hc3
    have hcv := alu_nonadd_no_cv inp hop
    have hbits := flagsToPsr_testBit (ALU.execute inp).m_flags
    rw [hpsr]
    exact ⟨hbits.2.2.1.trans hcv.1, hbits.2.2.2.trans hcv.2⟩

/-- The state used by `C3_counterexample`: `memory[0]` holds the S-type PUSH
encoding `0x10E3` (type 3, opcode 14, Rd 1), PC = 0, SP = 26, all flags
clear; segments as in the shipped `main.cpp` (SS = [25,30]). -/
def c3State : Core.CoreState :=
  { m_memory := fun a => if a = 0 then 4323 else 0
  , m_register := fun r => if r = 13 then 26 else 0
  , m_psr := 0
  , m_segment := mainSegments }

/-- Claim C3 counterexample.  A PUSH (opcode 14 ≠ ADD) retires normally from
`c3State` (SP = 26 pushes to address 25 ∈ SS) and leaves the PSR equal to 4:
the C bit (bit 2) is **set**, because the ALU ran `ADD(SP, 0xFFFFFFFF)` and
its wrap-around carry test fired — refuting "C and V become false on every
instruction whose opcode is not ADD". -/
theorem C3_counterexample :
    Core.psrAfter (Core.stepInstruction 300 c3State) = some 4 ∧
    (Decoder.decode (c3State.m_memory 0)).m_code = OpCode.PUSH ∧
    OpCode.PUSH ≠ OpCode.ADD ∧
    Nat.testBit 4 PSRReg.C = true := by
  refine ⟨?_, by decide, by decide, by decide⟩
  decide

/-- Concrete data for the C3 witness: a UMUL R-type instruction executed on
the all-zero register file. -/
def c3wState : Core.CoreState :=
  { m_memory := fun _ => 0
  , m_register := fun _ => 0
  , m_psr := 0
  , m_segment := mainSegments }

def c3wInstruction : Decoder.Instruction :=
  { m_type := OpType.Rt, m_code := OpCode.UMUL
  , m_Rd := 2, m_Rn := 3, m_Rm := 4, m_imm := 0 }

def c3wInput : ALU.ALUInput := ⟨.UMUL, (0, 0)⟩

def c3wS1 : Core.CoreState :=
  Core.updatePsr c3wState (ALU.execute c3wInput).m_flags

def c3wS2 : Core.CoreState :=
  { c3wS1 with m_register := Core.setAt c3wS1.m_register 2 0 }

/-- Witness for C3: the amended tail applied to a retired UMUL clears C/V. -/
theorem C3_psr_update_witness :
    c3wS2.m_psr.testBit PSRReg.C = false ∧
    c3wS2.m_psr.testBit PSRReg.V = false :=
  (C3_psr_update 300 c3wState c3wInstruction c3wInput (by decide) rfl).2.2
    (by decide) (by decide) (by decide) c3wS1 0 c3wS2 rfl rfl

/-! ## Claim C4 -/

/-- The state `Core::fetch` hands to the rest of the loop iteration: PC
incremented with 32-bit wrap-around, everything else untouched. -/
def afterFetch (s : Core.CoreState) : Core.CoreState :=
  { s with
    m_register := Core.setAt s.m_register GPReg.PC
        ((s.m_register GPReg.PC + 1) % WMOD) }

/-- Claim C4 (corrected).  A POP whose stack check fails (`result − 1 ∉ SS`,
with `result = SP + 1` from the ALU) retires as a local no-op in
`memoryAccess`: memory and every general-purpose register including Rd and
SP keep their values and execution continues with the next instruction,
only PC having advanced past the POP.  The amendment: the PSR is **not**
"left as it was" — `execute` has already replaced it with the flag set of
the `ADD(SP, 1)` the ALU ran for the POP (see `C4_counterexample`). -/
theorem C4_pop_underflow_noop (memSize : Nat) (s : Core.CoreState)
    (hpc : Core.checkAddressInrange (s.m_register GPReg.PC)
        (s.m_segment Core.SEGReg.CS) = true)
    (hlt : s.m_register GPReg.PC < memSize)
    (hsent : freefuncs.testBitAll (s.m_memory (s.m_register GPReg.PC)) =
        some false)
    (htype : (Decoder.decode (s.m_memory (s.m_register GPReg.PC))).m_type ≠
        OpType.Jt)
    (hcode : (Decoder.decode (s.m_memory (s.m_register GPReg.PC))).m_code =
        OpCode.POP)
    (hss : Core.checkAddressInrange
        (Core.sub32 (ALU.execute ⟨.ADD, (s.m_register GPReg.SP, 1)⟩).m_result 1)
        (s.m_segment Core.SEGReg.SS) = false) :
    (Core.nextState (Core.stepInstruction memSize s)).isSome = true ∧
    ∀ s', Core.nextState (Core.stepInstruction memSize s) = some s' →
      s'.m_memory = s.m_memory ∧
      (∀ r, r ≠ GPReg.PC → s'.m_register r = s.m_register r) ∧
      s'.m_register GPReg.PC = (s.m_register GPReg.PC + 1) % WMOD ∧
      s'.m_psr = Core.flagsToPsr
        (ALU.execute ⟨.ADD, (s.m_register GPReg.SP, 1)⟩).m_flags ∧
      s'.m_segment = s.m_segment := by
  have hfetch : Core.fetch memSize s =
      some (afterFetch s, s.m_memory (s.m_register GPReg.PC)) := by
    unfold Core.fetch Core.memRead afterFetch
    rw [hpc]
    simp [hlt]
  have hreadSP : (afterFetch s).m_register GPReg.SP = s.m_register GPReg.SP := by
    unfold afterFetch Core.setAt GPReg.SP GPReg.PC
    simp
  have hgen : Core.generateALUInput (afterFetch s)
      (Decoder.decode (s.m_memory (s.m_register GPReg.PC))) =
      some ⟨.ADD, (s.m_register GPReg.SP, 1)⟩ := by
    unfold Core.generateALUInput
    rw [if_neg htype]
    simp only [hcode]
    norm_num [OpCode.ADD, OpCode.UMUL, OpCode.UDIV, OpCode.UMOL, OpCode.AND,
      OpCode.ORR, OpCode.XOR, OpCode.SHL, OpCode.SHR, OpCode.RTL, OpCode.RTR,
      OpCode.NOT, OpCode.LDR, OpCode.STR, OpCode.PUSH, OpCode.POP]
    rw [hreadSP]
    rfl
  have hcj : Core.checkJump (afterFetch s)
      (Decoder.decode (s.m_memory (s.m_register GPReg.PC))) = .notJump := by
    unfold Core.checkJump
    rw [if_pos htype]
  have hseg : (Core.updatePsr (afterFetch s)
      (ALU.execute ⟨.ADD, (s.m_register GPReg.SP, 1)⟩).m_flags).m_segment
      Core.SEGReg.SS = s.m_segment Core.SEGReg.SS := rfl
  have hstep : Core.stepInstruction memSize s = some (.next
      (Core.updatePsr (afterFetch s)
        (ALU.execute ⟨.ADD, (s.m_register GPReg.SP, 1)⟩).m_flags)) := by
    unfold Core.stepInstruction
    rw [hfetch]
    simp only [hsent, hcj]
    unfold Core.execute
    rw [hgen]
    simp only []
    unfold Core.memoryAccess
    simp only [hcode]
    norm_num [OpCode.LDR, OpCode.STR, OpCode.PUSH, OpCode.POP]
    rw [hseg, hss]
    simp
  rw [hstep]
  refine ⟨rfl, ?_⟩
  intro s' h
  obtain rfl := Option.some.inj h
  refine ⟨rfl, ?_, ?_, rfl, rfl⟩
  · intro r hr
    show (afterFetch s).m_register r = s.m_register r
    unfold afterFetch Core.setAt
    simp [hr]
  · show (afterFetch s).m_register GPReg.PC = (s.m_register GPReg.PC + 1) % WMOD
    unfold afterFetch Core.setAt
    simp

/-- State for the C4 counterexample and witness: `memory[0]` holds the
S-type POP encoding `0x20F3` (type 3, opcode 15, Rd 2), PC = 0, SP = 50
(so `result − 1 = 50 ∉ SS = [25,30]`), and the Z flag set (PSR = 2). -/
def c4State : Core.CoreState :=
  { m_memory := fun a => if a = 0 then 8435 else 0
  , m_register := fun r => if r = 13 then 50 else 0
  , m_psr := 2
  , m_segment := mainSegments }

/-- Claim C4 counterexample.  Before the POP the PSR holds Z (value 2); the
POP retires as the silent no-op, but the PSR afterwards is 0 — the flag set
of the `ADD(50, 1)` the ALU ran — not the Z it held before.  This refutes
"the PSR flags are left as they were before the instruction". -/
theorem C4_counterexample :
    Core.psrAfter (Core.stepInstruction 300 c4State) = some 0 ∧
    c4State.m_psr = 2 ∧
    (Decoder.decode (c4State.m_memory 0)).m_code = OpCode.POP := by
  refine ⟨?_, by decide, by decide⟩
  decide

/-- Witness for C4: the amended no-op statement applied to `c4State`. -/
theorem C4_pop_underflow_noop_witness :
    (Core.nextState (Core.stepInstruction 300 c4State)).isSome = true :=
  (C4_pop_underflow_noop 300 c4State (by decide) (by decide) (by decide)
    (by decide) (by decide) (by decide)).1

/-! ## Claim C10 -/

/-- Claim C10 (confirmed).  For every J-type instruction with opcode JMP, JZ,
JN, JC, JV or JZN, `checkJump` retires it by (at most) writing the
immediate into PC: memory, the PSR, the segment map and every register
other than PC are exactly as they were after the fetch; when the branch
condition is false the state is untouched (PC stays at the incremented
value), and when it is true PC becomes the immediate. -/
theorem C10_jump_frame_effect (s : Core.CoreState) (i : Decoder.Instruction)
    (htype : i.m_type = OpType.Jt)
    (hcode : i.m_code = OpCode.JMP ∨ i.m_code = OpCode.JZ ∨
             i.m_code = OpCode.JN ∨ i.m_code = OpCode.JC ∨
             i.m_code = OpCode.JV ∨ i.m_code = OpCode.JZN) :
    Core.checkJump s i =
      .jumped (Core.performJump s (Core.jumpCondition s i.m_code) i.m_imm) ∧
    ∀ s', Core.jumpedState (Core.checkJump s i) = some s' →
      s'.m_memory = s.m_memory ∧
      s'.m_psr = s.m_psr ∧
      s'.m_segment = s.m_segment ∧
      (∀ r, r ≠ GPReg.PC → s'.m_register r = s.m_register r) ∧
      (Core.jumpCondition s i.m_code = false → s' = s) ∧
      (Core.jumpCondition s i.m_code = true →
        s'.m_register GPReg.PC = i.m_imm) := by
  have harm : Core.checkJump s i =
      .jumped (Core.performJump s (Core.jumpCondition s i.m_code) i.m_imm) := by
    unfold Core.checkJump Core.jumpCondition
    rw [if_neg (by rw [htype]; exact fun hne => hne rfl)]
    rcases hcode with h | h | h | h | h | h <;>
      simp only [h] <;>
      norm_num [OpCode.JMP, OpCode.JZ, OpCode.JN, OpCode.JC, OpCode.JV,
        OpCode.JZN]
  refine ⟨harm, ?_⟩
  intro s' h
  rw [harm] at h
  obtain rfl := Option.some.inj h
  unfold Core.performJump
  by_cases hc : Core.jumpCondition s i.m_code
  · rw [if_pos hc]
    refine ⟨rfl, rfl, rfl, ?_, ?_, ?_⟩
    · intro r hr
      show Core.setAt s.m_register GPReg.PC i.m_imm r = s.m_register r
      unfold Core.setAt
      rw [if_neg hr]
    · intro hfalse
      rw [hc] at hfalse
      exact Bool.noConfusion hfalse
    · intro _
      show Core.setAt s.m_register GPReg.PC i.m_imm GPReg.PC = i.m_imm
      unfold Core.setAt
      rw [if_pos rfl]
  · rw [if_neg hc]
    refine ⟨rfl, rfl, rfl, fun r _ => rfl, fun _ => rfl, ?_⟩
    intro htrue
    exact absurd htrue hc

/-- Concrete data for the C10 witness: a JZ with Z clear in the PSR. -/
def c10State : Core.CoreState :=
  { m_memory := fun _ => 0
  , m_register := fun _ => 0
  , m_psr := 0
  , m_segment := mainSegments }

def c10Instruction : Decoder.Instruction :=
  { m_type := OpType.Jt, m_code := OpCode.JZ
  , m_Rd := 0, m_Rn := 0, m_Rm := 0, m_imm := 7 }

/-- Witness for C10 at a concrete JZ whose condition is false. -/
theorem C10_jump_frame_effect_witness :
    Core.checkJump c10State c10Instruction =
      .jumped (Core.performJump c10State
        (Core.jumpCondition c10State c10Instruction.m_code)
        c10Instruction.m_imm) :=
  (C10_jump_frame_effect c10State c10Instruction rfl (Or.inr (Or.inl rfl))).1

/-! ## Claim C5 — `Core::initialize` -/

namespace Core

/-- The segment-map argument of `Core::initialize`
(`std::unordered_map<SEGReg, SegmentRange>` keyed by the four segment
registers; an absent key is `none`). -/
structure SegmentMap where
  cs : Option SegmentRange
  ds : Option SegmentRange
  ss : Option SegmentRange
  es : Option SegmentRange
deriving DecidableEq, Repr

/-- Number of addresses an inclusive range covers: `end − start + 1`. -/
def SegmentRange.size (r : SegmentRange) : Nat := r.m_end - r.m_start + 1

/-- The per-range validity check of `initialize`:
`rng.m_end >= rng.m_start && rng.m_start >= 0 && rng.m_end < memory_size`
(the middle conjunct is vacuous on unsigned values). -/
def rangeValid (memSize : Nat) (r : SegmentRange) : Bool :=
  decide (r.m_end ≥ r.m_start) && decide (r.m_end < memSize)

/-- The `checkOverlap` lambda of `initialize`. -/
def checkOverlap (rng1 rng2 : SegmentRange) : Bool :=
  decide (rng1.m_start ≤ rng2.m_end) && decide (rng2.m_start ≤ rng1.m_end)

/-- The adjacent-pair scan `initialize` runs over the sorted ranges. -/
def adjacentOverlap : List SegmentRange → Bool
  | r1 :: r2 :: rest => checkOverlap r1 r2 || adjacentOverlap (r2 :: rest)
  | _ => false

/-- The sort key of `std::ranges::sort(ranges, less, &m_start)`. -/
def startLe (r1 r2 : SegmentRange) : Prop := r1.m_start ≤ r2.m_start

instance : DecidableRel startLe := fun a b => Nat.decLe a.m_start b.m_start

instance : IsTotal SegmentRange startLe := ⟨fun a b => Nat.le_total _ _⟩

instance : IsTrans SegmentRange startLe :=
  ⟨fun _ _ _ h1 h2 => Nat.le_trans h1 h2⟩

/-- The C++ `std::accumulate` with the `acc` lambda: the accumulator is a machine
word, so each step wraps modulo `2^32`. -/
def accSizes : List SegmentRange → Nat → Nat
  | [], i => i
  | r :: rest, i => accSizes rest ((i + (r.m_end - r.m_start) + 1) % WMOD)

/-- The C++ `Core::initialize` (together with the constructor): all four keys must
be present; every range must satisfy `start ≤ end < memSize`; the ranges,
sorted by start, must not overlap pairwise (checked on adjacent sorted
pairs); the accumulated sizes must not exceed `memSize`.  On success the
fresh core stores the segment map and sets `SP = SS.end + 1` (32-bit wrap)
and `PC = CS.start`; `none` models the fatal
"Failed to initialize segment." surfaced to the caller.  (The C++ collects
the ranges by iterating an `unordered_map` in unspecified order; the sort
makes the outcome order-independent, which `C5_initialize_contract` proves
by characterizing it with the symmetric pairwise-disjointness predicate.) -/
def init (memSize : Nat) (segment_config : SegmentMap) :
    Option CoreState :=
  match segment_config.cs, segment_config.ds,
        segment_config.ss, segment_config.es with
  | some csR, some dsR, some ssR, some esR =>
    if !([csR, dsR, ssR, esR].all (rangeValid memSize)) then none
    else if adjacentOverlap
        (List.insertionSort startLe [csR, dsR, ssR, esR]) then none
    else if accSizes
        (List.insertionSort startLe [csR, dsR, ssR, esR]) 0 > memSize then
      none
    else some
      { m_memory := fun _ => 0
      , m_register := setAt (setAt (fun _ => 0) GPReg.SP
            ((ssR.m_end + 1) % WMOD)) GPReg.PC csR.m_start
      , m_psr := 0
      , m_segment := fun sr =>
          match sr with
          | .CS => csR
          | .DS => dsR
          | .SS => ssR
          | .ES => esR }
  | _, _, _, _ => none

/-- Spec-side predicate: two inclusive ranges do not intersect. -/
def disjointRange (r1 r2 : SegmentRange) : Prop :=
  ¬(r1.m_start ≤ r2.m_end ∧ r2.m_start ≤ r1.m_end)

instance : DecidableRel disjointRange := fun r1 r2 =>
  decidable_of_iff (¬(r1.m_start ≤ r2.m_end ∧ r2.m_start ≤ r1.m_end)) Iff.rfl

end Core

theorem rangeValid_iff (memSize : Nat) (r : Core.SegmentRange) :
    Core.rangeValid memSize r = true ↔
      (r.m_start ≤ r.m_end ∧ r.m_end < memSize) := by
  unfold Core.rangeValid
  simp [ge_iff_le]

theorem checkOverlap_false_iff (r1 r2 : Core.SegmentRange) :
    Core.checkOverlap r1 r2 = false ↔ Core.disjointRange r1 r2 := by
  unfold Core.checkOverlap Core.disjointRange
  by_cases h1 : r1.m_start ≤ r2.m_end <;>
    by_cases h2 : r2.m_start ≤ r1.m_end <;> simp [h1, h2]

theorem disjointRange_symm : Symmetric Core.disjointRange := by
  intro r1 r2 h
  unfold Core.disjointRange at h ⊢
  omega

/-- On a start-sorted list of valid ranges, the adjacent-pair overlap scan
failing is the same as full pairwise disjointness. -/
theorem pairwise_of_sorted_chain :
    ∀ l : List Core.SegmentRange,
      (∀ r ∈ l, r.m_start ≤ r.m_end) →
      l.Sorted Core.startLe →
      Core.adjacentOverlap l = false →
      l.Pairwise Core.disjointRange
  | [], _, _, _ => List.Pairwise.nil
  | [r], _, _, _ => by simp
  | a :: b :: t, hval, hsort, hchain => by
      rw [show Core.adjacentOverlap (a :: b :: t) =
          (Core.checkOverlap a b || Core.adjacentOverlap (b :: t)) from rfl,
        Bool.or_eq_false_iff] at hchain
      obtain ⟨hab, hrest⟩ := hchain
      rw [List.sorted_cons] at hsort
      have htail := pairwise_of_sorted_chain (b :: t)
        (fun r hr => hval r (List.mem_cons_of_mem a hr)) hsort.2 hrest
      have hdab : Core.disjointRange a b := (checkOverlap_false_iff a b).mp hab
      have hgapab : a.m_end < b.m_start := by
        have h1 : Core.startLe a b := hsort.1 b (List.mem_cons_self b t)
        have h2 : b.m_start ≤ b.m_end :=
          hval b (List.mem_cons_of_mem a (List.mem_cons_self b t))
        unfold Core.disjointRange at hdab
        unfold Core.startLe at h1
        omega
      refine List.Pairwise.cons ?_ htail
      intro x hx
      rcases List.mem_cons.mp hx with rfl | hx'
      · exact hdab
      · have hbx : Core.disjointRange b x :=
          (List.pairwise_cons.mp htail).1 x hx'
        have hxval : x.m_start ≤ x.m_end := hval x
          (List.mem_cons_of_mem a (List.mem_cons_of_mem b hx'))
        have hbsx : Core.startLe b x := (List.sorted_cons.mp hsort.2).1 x hx'
        have hbval : b.m_start ≤ b.m_end :=
          hval b (List.mem_cons_of_mem a (List.mem_cons_self b t))
        unfold Core.disjointRange at hbx ⊢
        unfold Core.startLe at hbsx
        omega

/-- Pairwise disjointness makes every adjacent-pair overlap test fail. -/
theorem adjacentOverlap_false_of_pairwise :
    ∀ l : List Core.SegmentRange,
      l.Pairwise Core.disjointRange →
      Core.adjacentOverlap l = false
  | [], _ => rfl
  | [_], _ => rfl
  | a :: b :: t, hpw => by
      rw [show Core.adjacentOverlap (a :: b :: t) =
          (Core.checkOverlap a b || Core.adjacentOverlap (b :: t)) from rfl,
        Bool.or_eq_false_iff]
      obtain ⟨hhead, htail⟩ := List.pairwise_cons.mp hpw
      exact ⟨(checkOverlap_false_iff a b).mpr (hhead b (List.mem_cons_self b t)),
        adjacentOverlap_false_of_pairwise (b :: t) htail⟩

/-- Start-sorted, pairwise-disjoint valid ranges that all end below
`memSize` cannot cover more than `memSize` addresses in total. -/
theorem natSum_le_of_gaps :
    ∀ (l : List Core.SegmentRange) (memSize base : Nat),
      (∀ r ∈ l, r.m_start ≤ r.m_end ∧ r.m_end < memSize) →
      l.Sorted Core.startLe →
      l.Pairwise Core.disjointRange →
      base ≤ memSize →
      (∀ r ∈ l, base ≤ r.m_start) →
      (l.map Core.SegmentRange.size).sum + base ≤ memSize
  | [], _, _, _, _, _, hbase, _ => by simpa using hbase
  | a :: t, memSize, base, hval, hsort, hpw, hbase, hstart => by
      have haval := hval a (List.mem_cons_self a t)
      have habase := hstart a (List.mem_cons_self a t)
      have htail := natSum_le_of_gaps t memSize (a.m_end + 1)
        (fun r hr => hval r (List.mem_cons_of_mem a hr))
        (List.sorted_cons.mp hsort).2
        (List.pairwise_cons.mp hpw).2
        (by omega)
        (by
          intro r hr
          have hsr : Core.startLe a r := (List.sorted_cons.mp hsort).1 r hr
          have hd : Core.disjointRange a r :=
            (List.pairwise_cons.mp hpw).1 r hr
          have hrval := hval r (List.mem_cons_of_mem a hr)
          unfold Core.startLe at hsr
          unfold Core.disjointRange at hd
          omega)
      rw [List.map_cons, List.sum_cons]
      have hsz : Core.SegmentRange.size a = a.m_end - a.m_start + 1 := rfl
      omega

/-- The wrapped accumulator never exceeds the untruncated sum. -/
theorem accSizes_le :
    ∀ (l : List Core.SegmentRange) (i : Nat),
      Core.accSizes l i ≤ i + (l.map Core.SegmentRange.size).sum
  | [], i => by simp [Core.accSizes]
  | r :: t, i => by
      rw [show Core.accSizes (r :: t) i =
          Core.accSizes t ((i + (r.m_end - r.m_start) + 1) % WMOD) from rfl,
        List.map_cons, List.sum_cons]
      have h1 := accSizes_le t ((i + (r.m_end - r.m_start) + 1) % WMOD)
      have h2 : (i + (r.m_end - r.m_start) + 1) % WMOD ≤
          i + (r.m_end - r.m_start) + 1 := Nat.mod_le _ _
      have h3 : Core.SegmentRange.size r = r.m_end - r.m_start + 1 := rfl
      omega

/-- Claim C5 (confirmed).  `init(segmentMap)` succeeds iff all four keys CS,
DS, SS, ES are present, every range satisfies `start ≤ end` and
`end < MEM_SIZE`, the four ranges are pairwise non-overlapping, and the
total covered size is at most `MEM_SIZE`; on success `reg[SP] = SS.end + 1`,
`reg[PC] = CS.start`, and the segment map is stored.  Failure surfaces as a
fatal error (`none`) before any instruction runs.  The bound
`memSize < 2^32` covers both shipped configurations (50 and 300). -/
theorem C5_init_contract (memSize : Nat) (cfg : Core.SegmentMap)
    (hwf : memSize < 2 ^ 32) :
    ((Core.init memSize cfg).isSome = true ↔
      ∃ csR dsR ssR esR,
        cfg = ⟨some csR, some dsR, some ssR, some esR⟩ ∧
        (∀ r ∈ [csR, dsR, ssR, esR],
          r.m_start ≤ r.m_end ∧ r.m_end < memSize) ∧
        List.Pairwise Core.disjointRange [csR, dsR, ssR, esR] ∧
        ([csR, dsR, ssR, esR].map Core.SegmentRange.size).sum ≤ memSize) ∧
    (∀ st c ssg, Core.init memSize cfg = some st →
      cfg.cs = some c → cfg.ss = some ssg →
      st.m_register GPReg.SP = ssg.m_end + 1 ∧
      st.m_register GPReg.PC = c.m_start ∧
      st.m_segment Core.SEGReg.CS = c ∧
      st.m_segment Core.SEGReg.SS = ssg ∧
      (∀ d, cfg.ds = some d → st.m_segment Core.SEGReg.DS = d) ∧
      (∀ e, cfg.es = some e → st.m_segment Core.SEGReg.ES = e)) := by
  obtain ⟨ocs, ods, oss, oes⟩ := cfg
  rcases ocs with _ | csR
  · refine ⟨by simp [Core.init], ?_⟩
    intro st c ssg h
    simp [Core.init] at h
  rcases ods with _ | dsR
  · refine ⟨by simp [Core.init], ?_⟩
    intro st c ssg h
    simp [Core.init] at h
  rcases oss with _ | ssR
  · refine ⟨by simp [Core.init], ?_⟩
    intro st c ssg h
    simp [Core.init] at h
  rcases oes with _ | esR
  · refine ⟨by simp [Core.init], ?_⟩
    intro st c ssg h
    simp [Core.init] at h
  have hperm := List.perm_insertionSort Core.startLe [csR, dsR, ssR, esR]
  have hsorted := List.sorted_insertionSort Core.startLe [csR, dsR, ssR, esR]
  have hinit : Core.init memSize ⟨some csR, some dsR, some ssR, some esR⟩ =
      (if !([csR, dsR, ssR, esR].all (Core.rangeValid memSize)) then none
       else if Core.adjacentOverlap
          (List.insertionSort Core.startLe [csR, dsR, ssR, esR]) then none
       else if Core.accSizes
          (List.insertionSort Core.startLe [csR, dsR, ssR, esR]) 0 >
            memSize then none
       else some
        { m_memory := fun _ => 0
        , m_register := Core.setAt (Core.setAt (fun _ => 0) GPReg.SP
              ((ssR.m_end + 1) % WMOD)) GPReg.PC csR.m_start
        , m_psr := 0
        , m_segment := fun sr =>
            match sr with
            | .CS => csR
            | .DS => dsR
            | .SS => ssR
            | .ES => esR }) := rfl
  constructor
  · rw [hinit]
    by_cases hv : [csR, dsR, ssR, esR].all (Core.rangeValid memSize) = true
    case neg =>
      have hv' : [csR, dsR, ssR, esR].all (Core.rangeValid memSize) = false :=
        Bool.eq_false_iff.mpr hv
      rw [if_pos (by simp [hv'])]
      constructor
      · intro h; exact Bool.noConfusion h
      · rintro ⟨c', d', s', e', heq, hval, -, -⟩
        injection heq with h1 h2 h3 h4
        obtain rfl := Option.some.inj h1
        obtain rfl := Option.some.inj h2
        obtain rfl := Option.some.inj h3
        obtain rfl := Option.some.inj h4
        have hall : [csR, dsR, ssR, esR].all (Core.rangeValid memSize) = true :=
          List.all_eq_true.mpr
            (fun r hr => (rangeValid_iff memSize r).mpr (hval r hr))
        rw [hv'] at hall
        exact Bool.noConfusion hall
    case pos =>
      by_cases hov : Core.adjacentOverlap
          (List.insertionSort Core.startLe [csR, dsR, ssR, esR]) = true
      case pos =>
        rw [if_neg (by simp [hv]), if_pos hov]
        constructor
        · intro h; exact Bool.noConfusion h
        · rintro ⟨c', d', s', e', heq, -, hpw, -⟩
          injection heq with h1 h2 h3 h4
          obtain rfl := Option.some.inj h1
          obtain rfl := Option.some.inj h2
          obtain rfl := Option.some.inj h3
          obtain rfl := Option.some.inj h4
          have hpwsl := (List.Perm.pairwise_iff (fun h => disjointRange_symm h) hperm).mpr hpw
          have hfalse := adjacentOverlap_false_of_pairwise _ hpwsl
          rw [hov] at hfalse
          exact Bool.noConfusion hfalse
      case neg =>
        have hov' := Bool.eq_false_iff.mpr hov
        have hvall : ∀ r ∈ [csR, dsR, ssR, esR],
            r.m_start ≤ r.m_end ∧ r.m_end < memSize :=
          fun r hr => (rangeValid_iff memSize r).mp (List.all_eq_true.mp hv r hr)
        have hvsl : ∀ r ∈ List.insertionSort Core.startLe [csR, dsR, ssR, esR],
            r.m_start ≤ r.m_end ∧ r.m_end < memSize :=
          fun r hr => hvall r (hperm.mem_iff.mp hr)
        have hpwsl := pairwise_of_sorted_chain _
          (fun r hr => (hvsl r hr).1) hsorted hov'
        have hpwl := (List.Perm.pairwise_iff (fun h => disjointRange_symm h) hperm).mp hpwsl
        have hsumsl := natSum_le_of_gaps _ memSize 0 hvsl hsorted hpwsl
          (Nat.zero_le _) (fun r _ => Nat.zero_le _)
        have hsuml : ([csR, dsR, ssR, esR].map Core.SegmentRange.size).sum ≤
            memSize := by
          rw [← (hperm.map Core.SegmentRange.size).sum_eq]
          omega
        have hacc : ¬(Core.accSizes
            (List.insertionSort Core.startLe [csR, dsR, ssR, esR]) 0 >
              memSize) := by
          have := accSizes_le
            (List.insertionSort Core.startLe [csR, dsR, ssR, esR]) 0
          omega
        rw [if_neg (by simp [hv]), if_neg hov, if_neg hacc]
        simp only [Option.isSome_some]
        exact ⟨fun _ => ⟨csR, dsR, ssR, esR, rfl, hvall, hpwl, hsuml⟩,
          fun _ => trivial⟩
  · intro st c ssg heq hcs hss
    obtain rfl := Option.some.inj hcs
    obtain rfl := Option.some.inj hss
    rw [hinit] at heq
    by_cases hv : [csR, dsR, ssR, esR].all (Core.rangeValid memSize) = true
    case neg =>
      rw [if_pos (by simp [Bool.eq_false_iff.mpr hv])] at heq
      exact Option.noConfusion heq
    case pos =>
      by_cases hov : Core.adjacentOverlap
          (List.insertionSort Core.startLe [csR, dsR, ssR, esR]) = true
      case pos =>
        rw [if_neg (by simp [hv]), if_pos hov] at heq
        exact Option.noConfusion heq
      case neg =>
        by_cases hacc : Core.accSizes
            (List.insertionSort Core.startLe [csR, dsR, ssR, esR]) 0 > memSize
        case pos =>
          rw [if_neg (by simp [hv]), if_neg hov, if_pos hacc] at heq
          exact Option.noConfusion heq
        case neg =>
          rw [if_neg (by simp [hv]), if_neg hov, if_neg hacc] at heq
          obtain rfl := Option.some.inj heq
          have hssval : ssR.m_end < memSize :=
            ((rangeValid_iff memSize ssR).mp
              (List.all_eq_true.mp hv ssR (by simp))).2
          refine ⟨?_, ?_, rfl, rfl, ?_, ?_⟩
          · have hmod : (ssR.m_end + 1) % WMOD = ssR.m_end + 1 := by
              unfold WMOD
              exact Nat.mod_eq_of_lt (by omega)
            show Core.setAt (Core.setAt (fun _ => 0) GPReg.SP
                ((ssR.m_end + 1) % WMOD)) GPReg.PC csR.m_start GPReg.SP =
              ssR.m_end + 1
            rw [hmod]
            unfold Core.setAt GPReg.SP GPReg.PC
            simp
          · show Core.setAt (Core.setAt (fun _ => 0) GPReg.SP
                ((ssR.m_end + 1) % WMOD)) GPReg.PC csR.m_start GPReg.PC =
              csR.m_start
            unfold Core.setAt
            rw [if_pos rfl]
          · intro d hd
            obtain rfl := Option.some.inj hd
            rfl
          · intro e he
            obtain rfl := Option.some.inj he
            rfl

/-- Witness for C5: the S6 segment layout (with the synthesized SS) passes
`init` with `MEM_SIZE = 300`. -/
def c5Config : Core.SegmentMap :=
  ⟨some ⟨0, 24⟩, some ⟨31, 47⟩, some ⟨49, 299⟩, some ⟨48, 48⟩⟩

theorem C5_init_contract_witness :
    (Core.init 300 c5Config).isSome = true :=
  (C5_init_contract 300 c5Config (by norm_num)).1.mpr
    ⟨⟨0, 24⟩, ⟨31, 47⟩, ⟨49, 299⟩, ⟨48, 48⟩, rfl, by decide, by decide,
      by decide⟩

/-! ## Claim C9 — the loader (`src/core/prototype/inc/loader.hpp`) -/

namespace Loader

/-- The accumulated loader output: `m_data`, `m_instructions`,
`m_segments`. -/
structure LoaderData where
  m_data : List Nat
  m_instructions : List Nat
  m_segments : Core.SegmentMap
deriving DecidableEq, Repr

/-- The C++ `Loader::States` plus the value-initialized `StateSelector` before any
marker has been seen (`run` on that state throws
"Attempt to run with empty state."). -/
inductive LState where
  | empty | ds | es | ts | dd | td
deriving DecidableEq, Repr

/-- The C++ `isNumeric`: every character is a decimal digit or a space. -/
def isNumeric (line : List Char) : Bool :=
  line.all fun ch => ch.isDigit || ch == ' '

/-- Digit run of `operator>>`: accumulate decimal digits. -/
def readNat : List Char → Nat → Nat × List Char
  | [], acc => (acc, [])
  | ch :: rest, acc =>
      if ch.isDigit then readNat rest (acc * 10 + (ch.toNat - 48))
      else (acc, ch :: rest)

/-- Leading-whitespace skip of `operator>>`. -/
def skipSpaces : List Char → List Char
  | [] => []
  | ch :: rest => if ch == ' ' then skipSpaces rest else ch :: rest

/-- One `iss >> x` extraction of a decimal number (a failed extraction
leaves the value-initialized 0, as in C++; numbers are assumed to fit the
machine word, as in every shipped input). -/
def extractNat (line : List Char) : Nat × List Char :=
  readNat (skipSpaces line) 0

/-- The C++ `insert_or_assign` on the segment map. -/
def insertSeg (m : Core.SegmentMap) (k : Core.SEGReg)
    (r : Core.SegmentRange) : Core.SegmentMap :=
  match k with
  | .CS => { m with cs := some r }
  | .DS => { m with ds := some r }
  | .SS => { m with ss := some r }
  | .ES => { m with es := some r }

/-- The C++ `Loader::parseHeading`: a numeric line `<start> <end>`; fatal when not
numeric or when `start > end`; on success `insert_or_assign` the range. -/
def parseHeading (symbol : Core.SEGReg) (line : List Char)
    (segm : Core.SegmentMap) : Option Core.SegmentMap :=
  if !isNumeric line then none
  else
    let p1 := extractNat line
    let p2 := extractNat p1.2
    if p1.1 > p2.1 then none
    else some (insertSeg segm symbol ⟨p1.1, p2.1⟩)

/-- The C++ `Loader::parseBody`: a numeric line appended to the container. -/
def parseBody (line : List Char) (container : List Nat) :
    Option (List Nat) :=
  if !isNumeric line then none
  else some (container ++ [(extractNat line).1])

/-- The C++ `StateSelector::run`: dispatch the payload line to the current state's
handler; the empty initial state is fatal. -/
def runState (st : LState) (line : List Char) (d : LoaderData) :
    Option LoaderData :=
  match st with
  | .empty => none
  | .ds => (parseHeading .DS line d.m_segments).map
      fun sg => { d with m_segments := sg }
  | .es => (parseHeading .ES line d.m_segments).map
      fun sg => { d with m_segments := sg }
  | .ts => (parseHeading .CS line d.m_segments).map
      fun sg => { d with m_segments := sg }
  | .dd => (parseBody line d.m_data).map
      fun c => { d with m_data := c }
  | .td => (parseBody line d.m_instructions).map
      fun c => { d with m_instructions := c }

/-- The marker lookup table `lut`. -/
def markerOf (line : List Char) : Option LState :=
  if line = "ds".toList then some .ds
  else if line = "es".toList then some .es
  else if line = "ts".toList then some .ts
  else if line = "dd".toList then some .dd
  else if line = "td".toList then some .td
  else none

/-- The generator filter: blank lines and `;` comments never reach the
parser. -/
def keepLine : List Char → Bool
  | [] => false
  | ch :: _ => !(ch == ';')

/-- The line loop of `parseBinaryFile`: markers switch the state, other
lines run the current state's handler. -/
def parseLines : List (List Char) → LState → LoaderData →
    Option LoaderData
  | [], _, d => some d
  | line :: rest, st, d =>
      if !keepLine line then parseLines rest st d
      else
        match markerOf line with
        | some st' => parseLines rest st' d
        | none =>
            match runState st line d with
            | some d' => parseLines rest st d'
            | none => none

/-- The segment-map entries present, in one iteration order (the maximum
below does not depend on it). -/
def presentRanges (m : Core.SegmentMap) : List Core.SegmentRange :=
  (match m.cs with | some r => [r] | none => []) ++
  (match m.ds with | some r => [r] | none => []) ++
  (match m.ss with | some r => [r] | none => []) ++
  (match m.es with | some r => [r] | none => [])

/-- The `m_end` of `std::ranges::max_element` by `m_end`; `none` when the
map is empty (the source would dereference the end iterator). -/
def maxEnd? : List Core.SegmentRange → Option Nat
  | [] => none
  | r :: rest => some (rest.foldl (fun acc x => max acc x.m_end) r.m_end)

/-- Value `MemorySize - 1` as the source computes it: a `std::size_t`
subtraction, converted into the 32-bit `m_end` field. -/
def stackEnd (memSize : Nat) : Nat :=
  ((memSize + 2 ^ 64 - 1) % 2 ^ 64) % WMOD

/-- The C++ `Loader::appendStackSize`: synthesize
`SS = [maxEnd + 1, MemorySize − 1]` where `maxEnd` is the largest `m_end`
among the entries of `m_segments`. -/
def appendStackSize (memSize : Nat) (d : LoaderData) : Option LoaderData :=
  match maxEnd? (presentRanges d.m_segments) with
  | none => none
  | some m =>
      some
        { d with
          m_segments :=
            insertSeg d.m_segments .SS ⟨(m + 1) % WMOD, stackEnd memSize⟩ }

/-- The C++ `Loader::parseBinaryFile`: run the line classifier from the empty
state over the (already filtered) lines, then synthesize SS. -/
def parseBinaryFile (memSize : Nat) (lines : List (List Char)) :
    Option LoaderData :=
  match parseLines lines .empty ⟨[], [], ⟨none, none, none, none⟩⟩ with
  | none => none
  | some d => appendStackSize memSize d

end Loader

/-- The S6 input file of the spec, line by line. -/
def s6Lines : List (List Char) :=
  ["ds".toList, "31 47".toList, "es".toList, "48 48".toList,
   "ts".toList, "0 24".toList, "dd".toList, "104".toList,
   "td".toList, "255".toList]

/-- The S6 loader state just before `appendStackSize`. -/
def s6Parsed : Loader.LoaderData :=
  ⟨[104], [255], ⟨some ⟨0, 24⟩, some ⟨31, 47⟩, none, some ⟨48, 48⟩⟩⟩

/-- Claim C9 (confirmed).  After `parseBinaryFile`, the segment map contains a
synthesized stack segment `SS = [maxEnd + 1, MEM_SIZE − 1]`, where `maxEnd`
is the largest `end` among the segments parsed from the file (nothing else
changes); in particular the S6 input yields `data = [104]`,
`instructions = [255]`, `CS = [0,24]`, `DS = [31,47]`, `ES = [48,48]` and
`SS = [49, MEM_SIZE − 1]`. -/
theorem C9_loader_ss_synthesis :
    (∀ (memSize : Nat) (d : Loader.LoaderData) (m : Nat),
      Loader.maxEnd? (Loader.presentRanges d.m_segments) = some m →
      ∃ d', Loader.appendStackSize memSize d = some d' ∧
        d'.m_segments.ss = some ⟨(m + 1) % WMOD, Loader.stackEnd memSize⟩ ∧
        d'.m_data = d.m_data ∧
        d'.m_instructions = d.m_instructions ∧
        d'.m_segments.cs = d.m_segments.cs ∧
        d'.m_segments.ds = d.m_segments.ds ∧
        d'.m_segments.es = d.m_segments.es) ∧
    (∀ memSize : Nat, 1 ≤ memSize → memSize ≤ 2 ^ 32 →
      Loader.parseBinaryFile memSize s6Lines =
        some ⟨[104], [255],
          ⟨some ⟨0, 24⟩, some ⟨31, 47⟩, some ⟨49, memSize - 1⟩,
           some ⟨48, 48⟩⟩⟩) := by
  constructor
  · intro memSize d m hmax
    refine ⟨Loader.LoaderData.mk d.m_data d.m_instructions
        (Loader.insertSeg d.m_segments .SS
          ⟨(m + 1) % WMOD, Loader.stackEnd memSize⟩),
      ?_, rfl, rfl, rfl, rfl, rfl, rfl⟩
    unfold Loader.appendStackSize
    rw [hmax]
  · intro memSize h1 h32
    have hend : Loader.stackEnd memSize = memSize - 1 := by
      unfold Loader.stackEnd WMOD
      omega
    have hparse : Loader.parseLines s6Lines .empty
        ⟨[], [], ⟨none, none, none, none⟩⟩ = some s6Parsed := by decide
    have hmax : Loader.maxEnd? (Loader.presentRanges s6Parsed.m_segments) =
        some 48 := by decide
    unfold Loader.parseBinaryFile
    rw [hparse]
    show Loader.appendStackSize memSize s6Parsed = _
    unfold Loader.appendStackSize
    rw [hmax, hend]
    rfl

/-- Witness for C9: S6 with `MEM_SIZE = 300` (the shipped configuration),
and the SS-synthesis clause applied to the parsed S6 segments. -/
theorem C9_loader_ss_synthesis_witness :
    Loader.parseBinaryFile 300 s6Lines =
      some ⟨[104], [255],
        ⟨some ⟨0, 24⟩, some ⟨31, 47⟩, some ⟨49, 299⟩, some ⟨48, 48⟩⟩⟩ ∧
    (Loader.appendStackSize 300 s6Parsed).isSome = true := by
  constructor
  · exact C9_loader_ss_synthesis.2 300 (by norm_num) (by norm_num)
  · obtain ⟨d', hd', -⟩ :=
      C9_loader_ss_synthesis.1 300 s6Parsed 48 (by decide)
    rw [hd']
    rfl
